import Mathlib

/-!
Shallow embedding of the PSO-for-TSP program (`src/main.rs`) and proofs of
its specification claims.

Modelling conventions:
* `f64` values are modelled as real numbers (`ℝ`); all floating-point
  quantities appearing in the program (tour costs built from integer
  coordinates, and the literal configuration constants) are exact in this
  model for the inputs the claims are about.
* The program draws every "random" value from the system clock
  (`SystemTime::now()` nanoseconds).  We model the sequence of clock
  readings as an external stream `RNG := Nat → Nat`; each draw consumes the
  head of the stream.  `random_range min max t` is the program's
  `min + (t % (max - min))` computation on one reading `t`.
* Rust `Vec` indexing panics out of bounds; the cost evaluator is therefore
  `Option`-valued (`none` models a panic).  Inside the swarm machinery,
  where every access is in bounds along the executions the claims quantify
  over, total variants (`getD`-style access, `calcCost`) are used; their
  agreement with the `Option`-valued evaluator is proved (`calcCost_eq`).
* The constant block at the top of `main.rs` is gathered into a `Config`
  record so that configuration-dependence (and configuration-independence,
  claim C8) can be stated; `referenceConfig` is the literal constant block.
-/

namespace TSP

/-- A city: integer coordinates, as in `struct City { x: i32, y: i32 }`. -/
structure City where
  x : Int
  y : Int
deriving DecidableEq, Repr

/-- One particle: current permutation, personal best permutation, and their
costs, as in `struct Particle`. -/
structure Particle where
  position : List Nat
  best_position : List Nat
  best_cost : ℝ
  cost : ℝ

instance : Inhabited Particle := ⟨⟨[], [], 0, 0⟩⟩

/-- `Particle::new`: personal best initialised from the given position and
cost. -/
def Particle.new (position : List Nat) (cost : ℝ) : Particle :=
  ⟨position, position, cost, cost⟩

/-- The configuration surface of the program: the constant block at the top
of `main.rs`, as one record. -/
structure Config where
  num_cities : Nat
  num_particles : Nat
  max_iterations : Nat
  initial_inertia_weight : ℝ
  final_inertia_weight : ℝ
  cognitive_component : ℝ
  social_component : ℝ
  mutation_rate : ℝ
  prune_percentage : Nat

/-- The literal constants of `main.rs`. -/
def referenceConfig : Config :=
  { num_cities := 20
    num_particles := 500
    max_iterations := 2000
    initial_inertia_weight := 0.9
    final_inertia_weight := 0.4
    cognitive_component := 1.49445
    social_component := 1.49445
    mutation_rate := 0.1
    prune_percentage := 10 }

/-- The stream of system-clock readings the program consumes, one per call
to `random_range`. -/
abbrev RNG : Type := Nat → Nat

/-- Consume one clock reading from the stream. -/
def rand1 (g : RNG) : Nat × RNG := (g 0, fun n => g (n + 1))

/-- `random_range(min, max)` of `main.rs`: the epoch-nanosecond reading `t`
reduced modulo `max - min` and shifted by `min`. -/
def random_range (mn mx : Int) (t : Nat) : Int :=
  mn + (t : Int) % (mx - mn)

/-- `Vec::swap(i, j)`: exchange the elements at indices `i` and `j`.
Out-of-range indices (a panic in Rust, never reached on the executions the
claims are about) leave the list unchanged. -/
def listSwap (v : List α) (i j : Nat) : List α :=
  match v[i]?, v[j]? with
  | some a, some b => (v.set i b).set j a
  | _, _ => v

/-- The body of `shuffle_vec`: for indices `i, i+1, …` (`fuel` of them),
swap index `i` with a freshly drawn index `j ∈ [0, len)`. -/
def shuffle_aux (v : List Nat) (g : RNG) (i : Nat) : Nat → List Nat × RNG
  | 0 => (v, g)
  | fuel + 1 =>
    let t := (rand1 g).1
    let j := (random_range 0 (v.length : Int) t).toNat
    shuffle_aux (listSwap v i j) (rand1 g).2 (i + 1) fuel

/-- `shuffle_vec`: the program's Fisher–Yates-style full shuffle. -/
def shuffle_vec (v : List Nat) (g : RNG) : List Nat × RNG :=
  shuffle_aux v g 0 v.length

/-- Euclidean distance between two cities as computed in `calculate_cost`:
integer differences, squared and summed in `i32`, cast to float, square
root. -/
noncomputable def dist (a b : City) : ℝ :=
  Real.sqrt ((((a.x - b.x) ^ 2 + (a.y - b.y) ^ 2 : Int) : ℝ))

/-- One leg of the tour: look up both cities (panic → `none`) and take
their distance. -/
noncomputable def legCost (cities : List City) (a b : Nat) : Option ℝ := do
  let ca ← cities[a]?
  let cb ← cities[b]?
  pure (dist ca cb)

/-- The `for i in 0..route.len() - 1` accumulation of `calculate_cost`:
the sum of leg distances between consecutive route entries. -/
noncomputable def pathCost (cities : List City) : List Nat → Option ℝ
  | [] => some 0
  | [_] => some 0
  | a :: b :: rest => do
    let c ← legCost cities a b
    let r ← pathCost cities (b :: rest)
    pure (c + r)

/-- `calculate_cost` of `main.rs`: consecutive legs plus the closing edge
from `route[route.len()-1]` back to `route[0]`.  `none` models a Rust
panic (empty route, or a route entry out of bounds of `cities`). -/
noncomputable def calculate_cost (route : List Nat) (cities : List City) :
    Option ℝ := do
  let p ← pathCost cities route
  let s ← route[0]?
  let e ← route[route.length - 1]?
  let c ← legCost cities s e
  pure (p + c)

/-- Total version of the cost evaluator used inside the swarm machinery,
where every access is in bounds (agreement proved in `calcCost_eq`). -/
noncomputable def calcCost (route : List Nat) (cities : List City) : ℝ :=
  (calculate_cost route cities).getD 0

/-- City lookup with a default, for the specification-style cost sum. -/
def cityD (cities : List City) (a : Nat) : City :=
  cities.getD a ⟨0, 0⟩

/-- Modelled from the spec's words (§4.2), for the refinement claim C3:
"sums Euclidean distance between consecutive cities in route order, then
adds the distance from the last city back to the first". -/
noncomputable def tourCostSpec (route : List Nat) (cities : List City) : ℝ :=
  ((route.zip route.tail).map
    (fun q => dist (cityD cities q.1) (cityD cities q.2))).sum
  + dist (cityD cities (route.headD 0))
      (cityD cities (route.getD (route.length - 1) 0))

/-- The body of `initialize_particles`: build `fuel` particles, each from a
fresh shuffle of the identity permutation, with cost computed and personal
best initialised. -/
noncomputable def initialize_aux (cfg : Config) (cities : List City)
    (g : RNG) : Nat → List Particle × RNG
  | 0 => ([], g)
  | fuel + 1 =>
    let s := shuffle_vec (List.range cfg.num_cities) g
    let cost := calcCost s.1 cities
    let rest := initialize_aux cfg cities s.2 fuel
    (Particle.new s.1 cost :: rest.1, rest.2)

/-- `initialize_particles`: `NUM_PARTICLES` freshly shuffled particles. -/
noncomputable def initialize_particles (cfg : Config) (cities : List City)
    (g : RNG) : List Particle × RNG :=
  initialize_aux cfg cities g cfg.num_particles

/-- One Bernoulli-gated random swap, as in each half of
`apply_mutation_and_gaussian`: draw a probability; on success draw two
indices in `[0, NUM_CITIES)` and swap them. -/
noncomputable def mutate_once (cfg : Config) (position : List Nat)
    (g : RNG) : List Nat × RNG :=
  let t := (rand1 g).1
  let g1 := (rand1 g).2
  if ((random_range 0 100 t : Int) : ℝ) / 100 < cfg.mutation_rate then
    let t1 := (rand1 g1).1
    let g2 := (rand1 g1).2
    let t2 := (rand1 g2).1
    let g3 := (rand1 g2).2
    let i1 := (random_range 0 (cfg.num_cities : Int) t1).toNat
    let i2 := (random_range 0 (cfg.num_cities : Int) t2).toNat
    (listSwap position i1 i2, g3)
  else (position, g1)

/-- `apply_mutation_and_gaussian`: two independent random-swap trials (the
second is the "Gaussian-like perturbation", implemented identically). -/
noncomputable def apply_mutation_and_gaussian (cfg : Config)
    (position : List Nat) (g : RNG) : List Nat × RNG :=
  let r := mutate_once cfg position g
  mutate_once cfg r.1 r.2

/-- One index `i` of the cognitive/social swap pass of `update_particles`:
two fresh probability draws gate a swap with `best_position[i]` and a swap
with `global_best_position[i]` (both used as array indices). -/
noncomputable def cog_soc_step (cfg : Config) (bp gbp : List Nat)
    (pos : List Nat) (i : Nat) (g : RNG) : List Nat × RNG :=
  let t1 := (rand1 g).1
  let g1 := (rand1 g).2
  let pos1 :=
    if ((random_range 0 100 t1 : Int) : ℝ) / 100 < cfg.cognitive_component
    then listSwap pos i (bp.getD i 0) else pos
  let t2 := (rand1 g1).1
  let g2 := (rand1 g1).2
  let pos2 :=
    if ((random_range 0 100 t2 : Int) : ℝ) / 100 < cfg.social_component
    then listSwap pos1 i (gbp.getD i 0) else pos1
  (pos2, g2)

/-- The `for i in 0..NUM_CITIES` cognitive/social loop. -/
noncomputable def cog_soc_loop (cfg : Config) (bp gbp : List Nat) :
    List Nat → RNG → Nat → Nat → List Nat × RNG
  | pos, g, _, 0 => (pos, g)
  | pos, g, i, fuel + 1 =>
    let r := cog_soc_step cfg bp gbp pos i g
    cog_soc_loop cfg bp gbp r.1 r.2 (i + 1) fuel

/-- The per-particle body of `update_particles`: exploration shuffle,
cognitive/social swap pass, mutation, cost recomputation, personal-best
update, global-best update. -/
noncomputable def update_one (cfg : Config) (cities : List City)
    (gbp : List Nat) (gbc : ℝ) (p : Particle) (g : RNG) :
    Particle × List Nat × ℝ × RNG :=
  let r0 := shuffle_vec p.position g
  let r1 := cog_soc_loop cfg p.best_position gbp r0.1 r0.2 0 cfg.num_cities
  let r2 := apply_mutation_and_gaussian cfg r1.1 r1.2
  let pos2 := r2.1
  let cost := calcCost pos2 cities
  let bp := if cost < p.best_cost then pos2 else p.best_position
  let bc := if cost < p.best_cost then cost else p.best_cost
  let gbp1 := if cost < gbc then pos2 else gbp
  let gbc1 := if cost < gbc then cost else gbc
  (⟨pos2, bp, bc, cost⟩, gbp1, gbc1, r2.2)

/-- The `for particle in swarm.iter_mut()` loop of `update_particles`:
particles are processed in order, each seeing the global best left by its
predecessors. -/
noncomputable def update_loop (cfg : Config) (cities : List City) :
    List Particle → List Nat → ℝ → RNG →
    List Particle × List Nat × ℝ × RNG
  | [], gbp, gbc, g => ([], gbp, gbc, g)
  | p :: rest, gbp, gbc, g =>
    let r1 := update_one cfg cities gbp gbc p g
    let r2 := update_loop cfg cities rest r1.2.1 r1.2.2.1 r1.2.2.2
    (r1.1 :: r2.1, r2.2.1, r2.2.2.1, r2.2.2.2)

/-- `prune_count` as computed in `prune_particles`
(`NUM_PARTICLES * PRUNE_PERCENTAGE / 100`, flooring integer division). -/
def pruneCount (cfg : Config) : Nat :=
  cfg.num_particles * cfg.prune_percentage / 100

/-- The `swarm.sort_by(cost ascending)` step of `prune_particles`.  Rust's
`sort_by` is documented to be a stable sort; `mergeSort` is the stable
sort of the Lean library. -/
noncomputable def sortByCost (swarm : List Particle) : List Particle :=
  swarm.mergeSort (fun a b => decide (a.cost ≤ b.cost))

/-- One restarted particle of the prune loop: fresh shuffled identity
permutation, recomputed cost, personal best reset to the new state. -/
noncomputable def fresh_particle (cfg : Config) (cities : List City)
    (g : RNG) : Particle × RNG :=
  let r := shuffle_vec (List.range cfg.num_cities) g
  let cost := calcCost r.1 cities
  (⟨r.1, r.1, cost, cost⟩, r.2)

/-- The restarted particles of one prune pass, in generation order. -/
noncomputable def freshList (cfg : Config) (cities : List City) (g : RNG) :
    Nat → List Particle × RNG
  | 0 => ([], g)
  | n + 1 =>
    let r := fresh_particle cfg cities g
    let rest := freshList cfg cities r.2 n
    (r.1 :: rest.1, rest.2)

/-- The `for i in 0..prune_count` loop of `prune_particles`: overwrite
index `NUM_PARTICLES - 1 - i` with a fresh particle. -/
noncomputable def prune_go (cfg : Config) (cities : List City) :
    List Particle → RNG → Nat → Nat → List Particle × RNG
  | s, g, _, 0 => (s, g)
  | s, g, i, fuel + 1 =>
    let r := fresh_particle cfg cities g
    prune_go cfg cities (s.set (cfg.num_particles - 1 - i) r.1) r.2 (i + 1) fuel

/-- `prune_particles`: sort by cost ascending, then restart the
`prune_count` worst particles in place. -/
noncomputable def prune_particles (cfg : Config) (swarm : List Particle)
    (cities : List City) (g : RNG) : List Particle × RNG :=
  prune_go cfg cities (sortByCost swarm) g 0 (pruneCount cfg)

/-- `update_particles`: the per-particle loop followed by the prune pass
(the prune pass receives neither the global best position nor its cost). -/
noncomputable def update_particles (cfg : Config) (swarm : List Particle)
    (gbp : List Nat) (gbc : ℝ) (cities : List City) (g : RNG) :
    List Particle × List Nat × ℝ × RNG :=
  let r := update_loop cfg cities swarm gbp gbc g
  let pr := prune_particles cfg r.1 cities r.2.2.2
  (pr.1, r.2.1, r.2.2.1, pr.2)

/-- The mutable state of `main`'s optimisation loop. -/
structure SwarmState where
  swarm : List Particle
  global_best_position : List Nat
  global_best_cost : ℝ
  rng : RNG

/-- `main`'s initialisation: build the swarm, then seed the global best
from the first particle's personal best (`swarm[0]`). -/
noncomputable def initState (cfg : Config) (cities : List City) (g : RNG) :
    SwarmState :=
  let r := initialize_particles cfg cities g
  { swarm := r.1
    global_best_position := r.1.headI.best_position
    global_best_cost := r.1.headI.best_cost
    rng := r.2 }

/-- One iteration of `main`'s loop: one call to `update_particles`. -/
noncomputable def stepIter (cfg : Config) (cities : List City)
    (st : SwarmState) : SwarmState :=
  let r := update_particles cfg st.swarm st.global_best_position
    st.global_best_cost cities st.rng
  ⟨r.1, r.2.1, r.2.2.1, r.2.2.2⟩

/-- The state after `t` iterations of `main`'s loop. -/
noncomputable def runIters (cfg : Config) (cities : List City)
    (st : SwarmState) : Nat → SwarmState
  | 0 => st
  | t + 1 => stepIter cfg cities (runIters cfg cities st t)

/-! ### Swap and shuffle preserve permutations -/

theorem take_cons_drop_eq {α : Type u_1} (t : List α) (m : Nat)
    (h : m < t.length) : t = t.take m ++ t[m] :: t.drop (m + 1) := by
  conv_lhs => rw [← List.take_append_drop m t]
  rw [List.drop_eq_getElem_cons h]

theorem cons_set_perm {α : Type u_1} (t : List α) (m : Nat)
    (h : m < t.length) (x : α) : (t[m] :: t.set m x).Perm (x :: t) := by
  rw [List.set_eq_take_cons_drop x h]
  conv_rhs => rw [take_cons_drop_eq t m h]
  exact (List.Perm.cons _ List.perm_middle).trans
    ((List.Perm.swap _ _ _).trans (List.Perm.cons _ List.perm_middle.symm))

theorem set_set_perm {α : Type u_1} (v : List α) (i j : Nat)
    (hi : i < v.length) (hj : j < v.length) :
    ((v.set i v[j]).set j v[i]).Perm v := by
  induction v generalizing i j with
  | nil => simp at hi
  | cons x t ih =>
    match i, j with
    | 0, 0 => simp
    | 0, m + 1 =>
      simp only [List.getElem_cons_succ, List.getElem_cons_zero,
        List.set_cons_zero, List.set_cons_succ]
      exact cons_set_perm t m (by simpa using hj) x
    | n + 1, 0 =>
      simp only [List.getElem_cons_succ, List.getElem_cons_zero,
        List.set_cons_zero, List.set_cons_succ]
      exact cons_set_perm t n (by simpa using hi) x
    | n + 1, m + 1 =>
      simp only [List.getElem_cons_succ, List.set_cons_succ]
      exact List.Perm.cons x (ih n m (by simpa using hi) (by simpa using hj))

theorem listSwap_perm {α : Type u_1} (v : List α) (i j : Nat) :
    (listSwap v i j).Perm v := by
  rw [listSwap]
  split
  · next a b heq1 heq2 =>
    obtain ⟨hi, ha⟩ := List.getElem?_eq_some_iff.mp heq1
    obtain ⟨hj, hb⟩ := List.getElem?_eq_some_iff.mp heq2
    subst ha hb
    exact set_set_perm v i j hi hj
  · exact List.Perm.refl v

theorem shuffle_aux_perm (v : List Nat) (g : RNG) (i fuel : Nat) :
    ((shuffle_aux v g i fuel).1).Perm v := by
  induction fuel generalizing v g i with
  | zero => exact List.Perm.refl v
  | succ fuel ih =>
    simp only [shuffle_aux]
    exact (ih _ _ _).trans (listSwap_perm _ _ _)

theorem shuffle_vec_perm (v : List Nat) (g : RNG) :
    ((shuffle_vec v g).1).Perm v :=
  shuffle_aux_perm v g 0 v.length

theorem cog_soc_step_perm (cfg : Config) (bp gbp pos : List Nat) (i : Nat)
    (g : RNG) : ((cog_soc_step cfg bp gbp pos i g).1).Perm pos := by
  simp only [cog_soc_step]
  split_ifs <;>
    first
      | exact (listSwap_perm _ _ _).trans (listSwap_perm _ _ _)
      | exact listSwap_perm _ _ _
      | exact List.Perm.refl _

theorem cog_soc_loop_perm (cfg : Config) (bp gbp : List Nat) :
    ∀ (pos : List Nat) (g : RNG) (i fuel : Nat),
    ((cog_soc_loop cfg bp gbp pos g i fuel).1).Perm pos := by
  intro pos g i fuel
  induction fuel generalizing pos g i with
  | zero => exact List.Perm.refl _
  | succ fuel ih =>
    simp only [cog_soc_loop]
    exact (ih _ _ _).trans (cog_soc_step_perm cfg bp gbp pos i g)

theorem mutate_once_perm (cfg : Config) (pos : List Nat) (g : RNG) :
    ((mutate_once cfg pos g).1).Perm pos := by
  simp only [mutate_once]
  split_ifs <;> first | exact listSwap_perm _ _ _ | exact List.Perm.refl _

theorem apply_mutation_perm (cfg : Config) (pos : List Nat) (g : RNG) :
    ((apply_mutation_and_gaussian cfg pos g).1).Perm pos := by
  simp only [apply_mutation_and_gaussian]
  exact (mutate_once_perm _ _ _).trans (mutate_once_perm _ _ _)

/-! ### The per-particle update: what it does to the particle and to the
global best -/

theorem update_one_position_perm (cfg : Config) (cities : List City)
    (gbp : List Nat) (gbc : ℝ) (p : Particle) (g : RNG) :
    ((update_one cfg cities gbp gbc p g).1).position.Perm p.position := by
  simp only [update_one]
  exact ((apply_mutation_perm _ _ _).trans (cog_soc_loop_perm _ _ _ _ _ _ _)).trans
    (shuffle_vec_perm _ _)

theorem update_one_best_position (cfg : Config) (cities : List City)
    (gbp : List Nat) (gbc : ℝ) (p : Particle) (g : RNG) :
    ((update_one cfg cities gbp gbc p g).1).best_position =
        ((update_one cfg cities gbp gbc p g).1).position ∨
      ((update_one cfg cities gbp gbc p g).1).best_position =
        p.best_position := by
  simp only [update_one]
  split_ifs <;> simp

theorem update_one_cost (cfg : Config) (cities : List City)
    (gbp : List Nat) (gbc : ℝ) (p : Particle) (g : RNG) :
    ((update_one cfg cities gbp gbc p g).1).cost =
      calcCost ((update_one cfg cities gbp gbc p g).1).position cities := by
  simp only [update_one]

theorem update_one_gb (cfg : Config) (cities : List City) (gbp : List Nat)
    (gbc : ℝ) (p : Particle) (g : RNG) :
    ((update_one cfg cities gbp gbc p g).2.1 = gbp ∧
        (update_one cfg cities gbp gbc p g).2.2.1 = gbc) ∨
      ((update_one cfg cities gbp gbc p g).2.1 =
          ((update_one cfg cities gbp gbc p g).1).position ∧
        (update_one cfg cities gbp gbc p g).2.2.1 =
          ((update_one cfg cities gbp gbc p g).1).cost ∧
        (update_one cfg cities gbp gbc p g).2.2.1 < gbc) := by
  simp only [update_one]
  split_ifs with h <;> simp [h]

theorem update_one_gbc_le (cfg : Config) (cities : List City)
    (gbp : List Nat) (gbc : ℝ) (p : Particle) (g : RNG) :
    (update_one cfg cities gbp gbc p g).2.2.1 ≤ gbc := by
  rcases update_one_gb cfg cities gbp gbc p g with ⟨-, h⟩ | ⟨-, -, h⟩
  · exact le_of_eq h
  · exact le_of_lt h

theorem update_loop_gbc_le (cfg : Config) (cities : List City) :
    ∀ (swarm : List Particle) (gbp : List Nat) (gbc : ℝ) (g : RNG),
    (update_loop cfg cities swarm gbp gbc g).2.2.1 ≤ gbc := by
  intro swarm
  induction swarm with
  | nil => intro gbp gbc g; simp [update_loop]
  | cons p rest ih =>
    intro gbp gbc g
    simp only [update_loop]
    exact le_trans (ih _ _ _) (update_one_gbc_le _ _ _ _ _ _)

theorem update_particles_gbp (cfg : Config) (swarm : List Particle)
    (gbp : List Nat) (gbc : ℝ) (cities : List City) (g : RNG) :
    (update_particles cfg swarm gbp gbc cities g).2.1 =
      (update_loop cfg cities swarm gbp gbc g).2.1 := rfl

theorem update_particles_gbc (cfg : Config) (swarm : List Particle)
    (gbp : List Nat) (gbc : ℝ) (cities : List City) (g : RNG) :
    (update_particles cfg swarm gbp gbc cities g).2.2.1 =
      (update_loop cfg cities swarm gbp gbc g).2.2.1 := rfl

theorem stepIter_gbc_le (cfg : Config) (cities : List City)
    (st : SwarmState) :
    (stepIter cfg cities st).global_best_cost ≤ st.global_best_cost := by
  simp only [stepIter, update_particles_gbc]
  exact update_loop_gbc_le cfg cities _ _ _ _

/-! ### The permutation invariant -/

/-- Both stored permutations of a particle are permutations of `[0, N)`. -/
def PermOK (N : Nat) (p : Particle) : Prop :=
  p.position.Perm (List.range N) ∧ p.best_position.Perm (List.range N)

theorem update_one_PermOK (cfg : Config) (cities : List City)
    (gbp : List Nat) (gbc : ℝ) (p : Particle) (g : RNG)
    (h : PermOK cfg.num_cities p) :
    PermOK cfg.num_cities ((update_one cfg cities gbp gbc p g).1) := by
  constructor
  · exact (update_one_position_perm cfg cities gbp gbc p g).trans h.1
  · rcases update_one_best_position cfg cities gbp gbc p g with hb | hb
    · rw [hb]
      exact (update_one_position_perm cfg cities gbp gbc p g).trans h.1
    · rw [hb]
      exact h.2

theorem update_loop_PermOK (cfg : Config) (cities : List City) :
    ∀ (swarm : List Particle) (gbp : List Nat) (gbc : ℝ) (g : RNG),
    (∀ p ∈ swarm, PermOK cfg.num_cities p) →
    ∀ q ∈ (update_loop cfg cities swarm gbp gbc g).1,
      PermOK cfg.num_cities q := by
  intro swarm
  induction swarm with
  | nil => intro gbp gbc g _ q hq; simp [update_loop] at hq
  | cons p rest ih =>
    intro gbp gbc g hall q hq
    simp only [update_loop, List.mem_cons] at hq
    rcases hq with rfl | hq
    · exact update_one_PermOK cfg cities gbp gbc p g
        (hall p (List.mem_cons_self p rest))
    · exact ih _ _ _ (fun r hr => hall r (List.mem_cons_of_mem p hr)) q hq

theorem fresh_particle_PermOK (cfg : Config) (cities : List City)
    (g : RNG) : PermOK cfg.num_cities ((fresh_particle cfg cities g).1) := by
  constructor <;> exact shuffle_vec_perm (List.range cfg.num_cities) g

theorem prune_go_PermOK (cfg : Config) (cities : List City) :
    ∀ (fuel i : Nat) (s : List Particle) (g : RNG),
    (∀ p ∈ s, PermOK cfg.num_cities p) →
    ∀ q ∈ (prune_go cfg cities s g i fuel).1, PermOK cfg.num_cities q := by
  intro fuel
  induction fuel with
  | zero => intro i s g hall q hq; exact hall q hq
  | succ fuel ih =>
    intro i s g hall q hq
    simp only [prune_go] at hq
    refine ih (i + 1) _ _ ?_ q hq
    intro r hr
    rcases List.mem_or_eq_of_mem_set hr with hr1 | rfl
    · exact hall r hr1
    · exact fresh_particle_PermOK cfg cities g

theorem sortByCost_mem (swarm : List Particle) (q : Particle)
    (hq : q ∈ sortByCost swarm) : q ∈ swarm := by
  simpa [sortByCost] using hq

theorem prune_particles_PermOK (cfg : Config) (swarm : List Particle)
    (cities : List City) (g : RNG)
    (hall : ∀ p ∈ swarm, PermOK cfg.num_cities p) :
    ∀ q ∈ (prune_particles cfg swarm cities g).1,
      PermOK cfg.num_cities q := by
  intro q hq
  exact prune_go_PermOK cfg cities _ _ _ _
    (fun r hr => hall r (sortByCost_mem swarm r hr)) q hq

theorem update_particles_PermOK (cfg : Config) (swarm : List Particle)
    (gbp : List Nat) (gbc : ℝ) (cities : List City) (g : RNG)
    (hall : ∀ p ∈ swarm, PermOK cfg.num_cities p) :
    ∀ q ∈ (update_particles cfg swarm gbp gbc cities g).1,
      PermOK cfg.num_cities q := by
  intro q hq
  exact prune_particles_PermOK cfg _ cities _
    (update_loop_PermOK cfg cities swarm gbp gbc g hall) q hq

theorem initialize_aux_PermOK (cfg : Config) (cities : List City) :
    ∀ (fuel : Nat) (g : RNG),
    ∀ p ∈ (initialize_aux cfg cities g fuel).1, PermOK cfg.num_cities p := by
  intro fuel
  induction fuel with
  | zero => intro g p hp; simp [initialize_aux] at hp
  | succ fuel ih =>
    intro g p hp
    simp only [initialize_aux, List.mem_cons] at hp
    rcases hp with rfl | hp
    · exact ⟨shuffle_vec_perm _ _, shuffle_vec_perm _ _⟩
    · exact ih _ p hp

theorem runIters_PermOK (cfg : Config) (cities : List City) (g : RNG)
    (t : Nat) :
    ∀ p ∈ (runIters cfg cities (initState cfg cities g) t).swarm,
      PermOK cfg.num_cities p := by
  induction t with
  | zero =>
    intro p hp
    exact initialize_aux_PermOK cfg cities cfg.num_particles g p hp
  | succ t ih =>
    intro p hp
    simp only [runIters, stepIter] at hp
    exact update_particles_PermOK cfg _ _ _ cities _ ih p hp

/-! ### The cost evaluator: value on valid input, panic characterisation -/

theorem legCost_eq (cities : List City) (a b : Nat)
    (ha : a < cities.length) (hb : b < cities.length) :
    legCost cities a b = some (dist (cityD cities a) (cityD cities b)) := by
  simp [legCost, cityD, List.getElem?_eq_getElem, ha, hb]

theorem legCost_none_left (cities : List City) (a b : Nat)
    (ha : cities.length ≤ a) : legCost cities a b = none := by
  simp [legCost, List.getElem?_eq_none ha]

theorem legCost_none_right (cities : List City) (a b : Nat)
    (hb : cities.length ≤ b) : legCost cities a b = none := by
  cases hha : cities[a]? <;>
    simp [legCost, hha, List.getElem?_eq_none hb]

theorem pathCost_eq (cities : List City) :
    ∀ (route : List Nat), (∀ a ∈ route, a < cities.length) →
    pathCost cities route =
      some (((route.zip route.tail).map
        (fun q => dist (cityD cities q.1) (cityD cities q.2))).sum) := by
  intro route
  induction route with
  | nil => intro _; simp [pathCost]
  | cons a r ih =>
    cases r with
    | nil => intro _; simp [pathCost]
    | cons b rr =>
      intro hall
      rw [pathCost, legCost_eq cities a b
        (hall a (by simp)) (hall b (by simp)),
        ih (fun x hx => hall x (List.mem_cons_of_mem a hx))]
      simp

theorem calculate_cost_eq (route : List Nat) (cities : List City)
    (hne : route ≠ []) (hall : ∀ a ∈ route, a < cities.length) :
    calculate_cost route cities = some (tourCostSpec route cities) := by
  have h0 : 0 < route.length := List.length_pos.mpr hne
  have hl : route.length - 1 < route.length := by omega
  rw [calculate_cost, pathCost_eq cities route hall,
    List.getElem?_eq_getElem h0, List.getElem?_eq_getElem hl]
  simp only [Option.bind_eq_bind, Option.some_bind]
  rw [legCost_eq cities _ _ (hall _ (List.getElem_mem h0))
    (hall _ (List.getElem_mem hl))]
  simp only [Option.bind_eq_bind, Option.some_bind, Option.pure_def, tourCostSpec]
  have hh : route.headD 0 = route[0] := by
    rw [List.headD_eq_head?_getD, List.head?_eq_getElem?,
      List.getElem?_eq_getElem h0]
    rfl
  have hg : route.getD (route.length - 1) 0 = route[route.length - 1] := by
    rw [List.getD_eq_getElem?_getD, List.getElem?_eq_getElem hl]
    rfl
  rw [hh, hg]

theorem calculate_cost_nil (cities : List City) :
    calculate_cost [] cities = none := by
  simp [calculate_cost, pathCost]

theorem pathCost_oob (cities : List City) :
    ∀ (l : List Nat), (∃ x ∈ l, cities.length ≤ x) → 2 ≤ l.length →
    pathCost cities l = none := by
  intro l
  induction l with
  | nil => intro _ h2; simp at h2
  | cons a r ih =>
    cases r with
    | nil => intro _ h2; simp at h2
    | cons b rr =>
      intro hex _
      by_cases ha : cities.length ≤ a
      · rw [pathCost, legCost_none_left cities a b ha]
        rfl
      by_cases hb : cities.length ≤ b
      · rw [pathCost, legCost_none_right cities a b hb]
        rfl
      obtain ⟨x, hx, hxo⟩ := hex
      rcases List.mem_cons.mp hx with rfl | hx
      · exact absurd hxo ha
      rcases List.mem_cons.mp hx with rfl | hx
      · exact absurd hxo hb
      cases rr with
      | nil => simp at hx
      | cons c rrr =>
        rw [pathCost, legCost_eq cities a b (by omega) (by omega),
          ih ⟨x, List.mem_cons_of_mem b hx, hxo⟩ (by simp)]
        rfl

theorem calculate_cost_oob (route : List Nat) (cities : List City)
    (a : Nat) (ha : a ∈ route) (hoob : cities.length ≤ a) :
    calculate_cost route cities = none := by
  cases route with
  | nil => exact calculate_cost_nil cities
  | cons x r =>
    cases r with
    | nil =>
      have hax : a = x := by simpa using ha
      subst hax
      rw [calculate_cost, pathCost]
      simp [legCost_none_left cities a a hoob]
    | cons y rr =>
      rw [calculate_cost,
        pathCost_oob cities (x :: y :: rr) ⟨a, ha, hoob⟩ (by simp)]
      rfl

/-- The `Option`-valued evaluator never errors and never panics on a
nonempty in-bounds route; it panics (`none`) exactly on an empty route or
an out-of-bounds route entry. -/
theorem calculate_cost_none_iff (route : List Nat) (cities : List City) :
    calculate_cost route cities = none ↔
      route = [] ∨ ∃ a ∈ route, cities.length ≤ a := by
  constructor
  · intro h
    by_cases hne : route = []
    · exact Or.inl hne
    by_cases hall : ∀ a ∈ route, a < cities.length
    · rw [calculate_cost_eq route cities hne hall] at h
      exact absurd h (by simp)
    · push_neg at hall
      obtain ⟨a, ha, hoob⟩ := hall
      exact Or.inr ⟨a, ha, hoob⟩
  · intro h
    rcases h with rfl | ⟨a, ha, hoob⟩
    · exact calculate_cost_nil cities
    · exact calculate_cost_oob route cities a ha hoob

theorem calcCost_eq (route : List Nat) (cities : List City)
    (hne : route ≠ []) (hall : ∀ a ∈ route, a < cities.length) :
    calcCost route cities = tourCostSpec route cities := by
  rw [calcCost, calculate_cost_eq route cities hne hall]
  rfl

/-! ### The sort step of pruning: ascending, a permutation, stable -/

theorem costLE_trans (a b c : Particle) :
    decide (a.cost ≤ b.cost) → decide (b.cost ≤ c.cost) →
    decide (a.cost ≤ c.cost) := by
  simp only [decide_eq_true_iff]
  exact le_trans

theorem costLE_total (a b : Particle) :
    decide (a.cost ≤ b.cost) || decide (b.cost ≤ a.cost) := by
  simp only [Bool.or_eq_true, decide_eq_true_iff]
  exact le_total a.cost b.cost

theorem sortByCost_perm (s : List Particle) : (sortByCost s).Perm s :=
  List.mergeSort_perm s _

theorem sortByCost_length (s : List Particle) :
    (sortByCost s).length = s.length :=
  (sortByCost_perm s).length_eq

theorem sortByCost_sorted (s : List Particle) :
    (sortByCost s).Pairwise (fun a b => a.cost ≤ b.cost) := by
  have h := List.sorted_mergeSort costLE_trans costLE_total s
  exact h.imp (fun hab => by simpa using hab)

/-- Stability of the sort step: the particles of any fixed cost appear in
the sorted swarm in exactly the order they had before sorting. -/
theorem sortByCost_stable (s : List Particle) (c : ℝ) :
    (sortByCost s).filter (fun p => decide (p.cost = c)) =
      s.filter (fun p => decide (p.cost = c)) := by
  have hsub : List.Sublist (s.filter (fun p => decide (p.cost = c)))
      (sortByCost s) := by
    refine List.sublist_mergeSort costLE_trans costLE_total ?_
      (List.filter_sublist s)
    refine List.pairwise_of_forall_mem_list ?_
    intro a ha b hb
    have ha2 := (List.mem_filter.mp ha).2
    have hb2 := (List.mem_filter.mp hb).2
    simp only [decide_eq_true_iff] at ha2 hb2 ⊢
    rw [ha2, hb2]
  have hsub2 : List.Sublist (s.filter (fun p => decide (p.cost = c)))
      ((sortByCost s).filter (fun p => decide (p.cost = c))) := by
    have := hsub.filter (fun p => decide (p.cost = c))
    simpa [List.filter_filter] using this
  have hlen : ((sortByCost s).filter (fun p => decide (p.cost = c))).length =
      (s.filter (fun p => decide (p.cost = c))).length :=
    ((sortByCost_perm s).filter _).length_eq
  exact (hsub2.eq_of_length hlen.symm).symm

/-! ### The prune loop: exact characterisation -/

theorem freshList_length (cfg : Config) (cities : List City) :
    ∀ (n : Nat) (g : RNG), ((freshList cfg cities g n).1).length = n := by
  intro n
  induction n with
  | zero => intro g; rfl
  | succ n ih => intro g; simp [freshList, ih]

theorem freshList_reset (cfg : Config) (cities : List City) :
    ∀ (n : Nat) (g : RNG), ∀ p ∈ (freshList cfg cities g n).1,
    p.best_position = p.position ∧ p.best_cost = p.cost ∧
      p.cost = calcCost p.position cities ∧
      p.position.Perm (List.range cfg.num_cities) := by
  intro n
  induction n with
  | zero => intro g p hp; simp [freshList] at hp
  | succ n ih =>
    intro g p hp
    simp only [freshList, List.mem_cons] at hp
    rcases hp with rfl | hp
    · exact ⟨rfl, rfl, rfl, shuffle_vec_perm _ _⟩
    · exact ih _ p hp

theorem prune_go_eq (cfg : Config) (cities : List City) :
    ∀ (fuel i : Nat) (s : List Particle) (g : RNG),
    s.length = cfg.num_particles → i + fuel ≤ cfg.num_particles →
    prune_go cfg cities s g i fuel =
      (s.take (cfg.num_particles - i - fuel) ++
        ((freshList cfg cities g fuel).1).reverse ++
        s.drop (cfg.num_particles - i),
       (freshList cfg cities g fuel).2) := by
  intro fuel
  induction fuel with
  | zero =>
    intro i s g hlen _
    simp only [prune_go, freshList, List.reverse_nil, List.append_nil,
      Nat.sub_zero]
    rw [List.take_append_drop]
  | succ fuel ih =>
    intro i s g hlen hle
    have hm : cfg.num_particles - 1 - i < s.length := by omega
    have hset : (s.set (cfg.num_particles - 1 - i) ((fresh_particle cfg cities g).1)).length = cfg.num_particles := by
      simpa using hlen
    rw [prune_go, ih (i + 1) _ _ hset (by omega)]
    have htake : (s.set (cfg.num_particles - 1 - i)
        ((fresh_particle cfg cities g).1)).take
          (cfg.num_particles - (i + 1) - fuel) =
        s.take (cfg.num_particles - (i + 1) - fuel) := by
      rw [List.set_take]
      refine List.set_eq_of_length_le ?_
      have := List.length_take (cfg.num_particles - (i + 1) - fuel) s
      omega
    have hdrop : (s.set (cfg.num_particles - 1 - i)
        ((fresh_particle cfg cities g).1)).drop
          (cfg.num_particles - (i + 1)) =
        (fresh_particle cfg cities g).1 :: s.drop (cfg.num_particles - i) := by
      have he : cfg.num_particles - 1 - i = cfg.num_particles - (i + 1) := by
        omega
      have hx : cfg.num_particles - (i + 1) < s.length := by omega
      have hy : cfg.num_particles - (i + 1) + 1 = cfg.num_particles - i := by
        omega
      rw [he, List.drop_set, if_neg (Nat.lt_irrefl _), Nat.sub_self]
      rw [List.drop_eq_getElem_cons hx, List.set_cons_zero, hy]
    rw [htake, hdrop]
    simp only [freshList]
    have harith : cfg.num_particles - i - (fuel + 1) =
        cfg.num_particles - (i + 1) - fuel := by omega
    rw [harith]
    simp [List.append_assoc]

/-- `prune_particles`, in closed form: the sorted swarm with its
`prune_count` highest-cost entries replaced by the freshly generated
particles (generation order runs from the last index downwards). -/
theorem prune_particles_eq (cfg : Config) (swarm : List Particle)
    (cities : List City) (g : RNG)
    (hlen : swarm.length = cfg.num_particles)
    (hpc : pruneCount cfg ≤ cfg.num_particles) :
    prune_particles cfg swarm cities g =
      ((sortByCost swarm).take (cfg.num_particles - pruneCount cfg) ++
        ((freshList cfg cities g (pruneCount cfg)).1).reverse,
       (freshList cfg cities g (pruneCount cfg)).2) := by
  rw [prune_particles, prune_go_eq cfg cities (pruneCount cfg) 0 _ g
    (by rw [sortByCost_length]; exact hlen) (by omega)]
  have hd : (sortByCost swarm).drop (cfg.num_particles - 0) = [] := by
    refine List.drop_eq_nil_of_le ?_
    rw [sortByCost_length, hlen]
    omega
  rw [hd, Nat.sub_zero]
  simp

/-! ### Coherence of the stored global best pair -/

theorem update_one_coherent (cfg : Config) (cities : List City)
    (gbp : List Nat) (gbc : ℝ) (p : Particle) (g : RNG)
    (h : gbc = calcCost gbp cities) :
    (update_one cfg cities gbp gbc p g).2.2.1 =
      calcCost (update_one cfg cities gbp gbc p g).2.1 cities := by
  simp only [update_one]
  split_ifs with hc
  · rfl
  · exact h

theorem update_loop_coherent (cfg : Config) (cities : List City) :
    ∀ (swarm : List Particle) (gbp : List Nat) (gbc : ℝ) (g : RNG),
    gbc = calcCost gbp cities →
    (update_loop cfg cities swarm gbp gbc g).2.2.1 =
      calcCost (update_loop cfg cities swarm gbp gbc g).2.1 cities := by
  intro swarm
  induction swarm with
  | nil => intro gbp gbc g h; exact h
  | cons p rest ih =>
    intro gbp gbc g h
    simp only [update_loop]
    exact ih _ _ _ (update_one_coherent cfg cities gbp gbc p g h)

theorem stepIter_coherent (cfg : Config) (cities : List City)
    (st : SwarmState)
    (h : st.global_best_cost = calcCost st.global_best_position cities) :
    (stepIter cfg cities st).global_best_cost =
      calcCost (stepIter cfg cities st).global_best_position cities := by
  simp only [stepIter, update_particles_gbc, update_particles_gbp]
  exact update_loop_coherent cfg cities _ _ _ _ h

theorem initState_coherent (cfg : Config) (cities : List City) (g : RNG) :
    (initState cfg cities g).global_best_cost =
      calcCost (initState cfg cities g).global_best_position cities := by
  cases hn : cfg.num_particles with
  | zero =>
    simp only [initState, initialize_particles, hn, initialize_aux]
    show (default : Particle).best_cost =
      calcCost (default : Particle).best_position cities
    show (0 : ℝ) = calcCost [] cities
    rw [calcCost, calculate_cost_nil]
    rfl
  | succ n =>
    simp only [initState, initialize_particles, hn, initialize_aux]
    rfl

theorem runIters_coherent (cfg : Config) (cities : List City) (g : RNG)
    (t : Nat) :
    (runIters cfg cities (initState cfg cities g) t).global_best_cost =
      calcCost
        (runIters cfg cities (initState cfg cities g) t).global_best_position
        cities := by
  induction t with
  | zero => exact initState_coherent cfg cities g
  | succ t ih => exact stepIter_coherent cfg cities _ ih

/-! ### The probability draws and the cognitive/social thresholds -/

theorem random_range_nonneg (mx : Int) (t : Nat) (h : 0 < mx) :
    0 ≤ random_range 0 mx t := by
  rw [random_range]
  simp only [zero_add, Int.sub_zero]
  exact Int.emod_nonneg _ (by omega)

theorem random_range_lt (mx : Int) (t : Nat) (h : 0 < mx) :
    random_range 0 mx t < mx := by
  rw [random_range]
  simp only [zero_add, Int.sub_zero]
  exact Int.emod_lt_of_pos _ h

/-- Every probability the program manufactures is one of
`0.00, 0.01, …, 0.99`: strictly below `1`. -/
theorem prob_lt_one (t : Nat) :
    ((random_range 0 100 t : Int) : ℝ) / 100 < 1 := by
  have h1 : random_range 0 100 t < 100 := random_range_lt 100 t (by omega)
  have h2 : ((random_range 0 100 t : Int) : ℝ) < 100 := by exact_mod_cast h1
  linarith

/-- With thresholds at least `1` (as in the reference configuration,
`1.49445`), both conditional swaps of the cognitive/social pass fire on
every draw. -/
theorem cog_soc_step_always (cfg : Config) (bp gbp pos : List Nat)
    (i : Nat) (g : RNG) (h1 : (1 : ℝ) ≤ cfg.cognitive_component)
    (h2 : (1 : ℝ) ≤ cfg.social_component) :
    cog_soc_step cfg bp gbp pos i g =
      (listSwap (listSwap pos i (bp.getD i 0)) i (gbp.getD i 0),
        (rand1 (rand1 g).2).2) := by
  simp only [cog_soc_step]
  rw [if_pos (lt_of_lt_of_le (prob_lt_one _) h1),
    if_pos (lt_of_lt_of_le (prob_lt_one _) h2)]

/-! ### The inertia weights are dead configuration -/

/-- The same configuration with the two inertia weights replaced. -/
def setIW (cfg : Config) (w1 w2 : ℝ) : Config :=
  { cfg with initial_inertia_weight := w1, final_inertia_weight := w2 }

theorem mutate_once_setIW (cfg : Config) (w1 w2 : ℝ) (pos : List Nat)
    (g : RNG) : mutate_once (setIW cfg w1 w2) pos g = mutate_once cfg pos g := by
  cases cfg
  rfl

theorem apply_mutation_setIW (cfg : Config) (w1 w2 : ℝ) (pos : List Nat)
    (g : RNG) : apply_mutation_and_gaussian (setIW cfg w1 w2) pos g =
      apply_mutation_and_gaussian cfg pos g := by
  cases cfg
  rfl

theorem cog_soc_step_setIW (cfg : Config) (w1 w2 : ℝ) (bp gbp pos : List Nat)
    (i : Nat) (g : RNG) : cog_soc_step (setIW cfg w1 w2) bp gbp pos i g =
      cog_soc_step cfg bp gbp pos i g := by
  cases cfg
  rfl

theorem cog_soc_loop_setIW (cfg : Config) (w1 w2 : ℝ) (bp gbp : List Nat) :
    ∀ (fuel : Nat) (pos : List Nat) (g : RNG) (i : Nat),
    cog_soc_loop (setIW cfg w1 w2) bp gbp pos g i fuel =
      cog_soc_loop cfg bp gbp pos g i fuel := by
  intro fuel
  induction fuel with
  | zero => intro pos g i; rfl
  | succ fuel ih =>
    intro pos g i
    simp only [cog_soc_loop, cog_soc_step_setIW]
    exact ih _ _ _

theorem update_one_setIW (cfg : Config) (w1 w2 : ℝ) (cities : List City)
    (gbp : List Nat) (gbc : ℝ) (p : Particle) (g : RNG) :
    update_one (setIW cfg w1 w2) cities gbp gbc p g =
      update_one cfg cities gbp gbc p g := by
  simp only [update_one, cog_soc_loop_setIW, apply_mutation_setIW]
  rfl

theorem update_loop_setIW (cfg : Config) (w1 w2 : ℝ) (cities : List City) :
    ∀ (swarm : List Particle) (gbp : List Nat) (gbc : ℝ) (g : RNG),
    update_loop (setIW cfg w1 w2) cities swarm gbp gbc g =
      update_loop cfg cities swarm gbp gbc g := by
  intro swarm
  induction swarm with
  | nil => intro gbp gbc g; rfl
  | cons p rest ih =>
    intro gbp gbc g
    simp only [update_loop, update_one_setIW, ih]

theorem fresh_particle_setIW (cfg : Config) (w1 w2 : ℝ) (cities : List City)
    (g : RNG) : fresh_particle (setIW cfg w1 w2) cities g =
      fresh_particle cfg cities g := by
  cases cfg
  rfl

theorem prune_go_setIW (cfg : Config) (w1 w2 : ℝ) (cities : List City) :
    ∀ (fuel : Nat) (s : List Particle) (g : RNG) (i : Nat),
    prune_go (setIW cfg w1 w2) cities s g i fuel =
      prune_go cfg cities s g i fuel := by
  intro fuel
  induction fuel with
  | zero => intro s g i; rfl
  | succ fuel ih =>
    intro s g i
    simp only [prune_go, fresh_particle_setIW]
    exact ih _ _ _

theorem prune_particles_setIW (cfg : Config) (w1 w2 : ℝ)
    (swarm : List Particle) (cities : List City) (g : RNG) :
    prune_particles (setIW cfg w1 w2) swarm cities g =
      prune_particles cfg swarm cities g := by
  simp only [prune_particles, prune_go_setIW]
  rfl

theorem update_particles_setIW (cfg : Config) (w1 w2 : ℝ)
    (swarm : List Particle) (gbp : List Nat) (gbc : ℝ) (cities : List City)
    (g : RNG) : update_particles (setIW cfg w1 w2) swarm gbp gbc cities g =
      update_particles cfg swarm gbp gbc cities g := by
  simp only [update_particles, update_loop_setIW, prune_particles_setIW]

theorem initialize_aux_setIW (cfg : Config) (w1 w2 : ℝ)
    (cities : List City) :
    ∀ (fuel : Nat) (g : RNG),
    initialize_aux (setIW cfg w1 w2) cities g fuel =
      initialize_aux cfg cities g fuel := by
  intro fuel
  induction fuel with
  | zero => intro g; rfl
  | succ fuel ih =>
    intro g
    simp only [initialize_aux, ih]
    rfl

theorem initState_setIW (cfg : Config) (w1 w2 : ℝ) (cities : List City)
    (g : RNG) : initState (setIW cfg w1 w2) cities g =
      initState cfg cities g := by
  simp only [initState, initialize_particles, initialize_aux_setIW]
  rfl

theorem stepIter_setIW (cfg : Config) (w1 w2 : ℝ) (cities : List City)
    (st : SwarmState) : stepIter (setIW cfg w1 w2) cities st =
      stepIter cfg cities st := by
  simp only [stepIter, update_particles_setIW]

theorem runIters_setIW (cfg : Config) (w1 w2 : ℝ) (cities : List City)
    (st : SwarmState) (t : Nat) :
    runIters (setIW cfg w1 w2) cities st t = runIters cfg cities st t := by
  induction t with
  | zero => rfl
  | succ t ih => simp only [runIters, stepIter_setIW, ih]

/-! ### Concrete evaluations used by the claims -/

theorem dist_eval_25 : dist ⟨0, 0⟩ ⟨3, 4⟩ = 5 := by
  rw [dist]
  norm_num
  rw [show ((25 : ℝ)) = 5 ^ 2 by norm_num]
  exact Real.sqrt_sq (by norm_num)

theorem sqrt_100_eq : Real.sqrt 100 = 10 := by
  rw [show ((100 : ℝ)) = 10 ^ 2 by norm_num]
  exact Real.sqrt_sq (by norm_num)

theorem dist_self_eq_zero (a : City) : dist a a = 0 := by
  rw [dist]
  norm_num

/-! ## The claims -/

/-- Claim C1: the global best cost is monotonically non-increasing across
the run: it is initialised from the first particle's personal best after
swarm initialisation, and thereafter changed only when a particle's freshly
computed cost is strictly below it, so the cost at iteration `t + 1` is at
most the cost at iteration `t`, for every configuration, city catalog and
stream of clock readings. -/
theorem claim_C1_global_best_monotone (cfg : Config) (cities : List City)
    (g : RNG) (t : Nat) :
    (runIters cfg cities (initState cfg cities g) (t + 1)).global_best_cost ≤
      (runIters cfg cities (initState cfg cities g) t).global_best_cost ∧
    (initState cfg cities g).global_best_position =
      ((initialize_particles cfg cities g).1.headI).best_position ∧
    (initState cfg cities g).global_best_cost =
      ((initialize_particles cfg cities g).1.headI).best_cost ∧
    (∀ (gbp : List Nat) (gbc : ℝ) (p : Particle) (gr : RNG),
      ((update_one cfg cities gbp gbc p gr).2.1 = gbp ∧
        (update_one cfg cities gbp gbc p gr).2.2.1 = gbc) ∨
      (update_one cfg cities gbp gbc p gr).2.2.1 < gbc) := by
  refine ⟨stepIter_gbc_le cfg cities _, rfl, rfl, ?_⟩
  intro gbp gbc p gr
  rcases update_one_gb cfg cities gbp gbc p gr with h | ⟨_, _, h⟩
  · exact Or.inl h
  · exact Or.inr h

/-- Claim C2: at every iteration boundary every particle's `position` and
`best_position` are permutations of `[0, N)`, and each operation applied to
a position (shuffle, cognitive/social swap step, the two mutation swaps,
and the prune-time reinitialisation) maps a permutation to a permutation. -/
theorem claim_C2_permutation_invariant (cfg : Config) (cities : List City)
    (g : RNG) (t : Nat) :
    ((runIters cfg cities (initState cfg cities g) t).swarm).Forall
      (fun p => p.position.Perm (List.range cfg.num_cities) ∧
        p.best_position.Perm (List.range cfg.num_cities)) ∧
    (∀ (v : List Nat) (g2 : RNG), ((shuffle_vec v g2).1).Perm v) ∧
    (∀ (bp gbp pos : List Nat) (i : Nat) (g2 : RNG),
      ((cog_soc_step cfg bp gbp pos i g2).1).Perm pos) ∧
    (∀ (pos : List Nat) (g2 : RNG),
      ((apply_mutation_and_gaussian cfg pos g2).1).Perm pos) ∧
    (∀ (g2 : RNG),
      (((fresh_particle cfg cities g2).1).position).Perm
        (List.range cfg.num_cities)) := by
  refine ⟨List.forall_iff_forall_mem.mpr (runIters_PermOK cfg cities g t),
    shuffle_vec_perm, cog_soc_step_perm cfg, apply_mutation_perm cfg, ?_⟩
  intro g2
  exact shuffle_vec_perm _ _

/-- Claim C3: on a permutation route over at least two cities the cost
evaluator returns the sum of consecutive Euclidean leg distances plus the
closing edge back to the start (the specification-style sum
`tourCostSpec`); in particular the two-city out-and-back tour costs `10`
and the unit-order tour of the `10 × 10` square costs `40`. -/
theorem claim_C3_cost_function :
    (∀ (route : List Nat) (cities : List City),
      2 ≤ cities.length → route.Perm (List.range cities.length) →
      calculate_cost route cities = some (tourCostSpec route cities)) ∧
    calculate_cost [0, 1] [⟨0, 0⟩, ⟨3, 4⟩] = some 10 ∧
    calculate_cost [0, 1, 2, 3] [⟨0, 0⟩, ⟨10, 0⟩, ⟨10, 10⟩, ⟨0, 10⟩] =
      some 40 := by
  refine ⟨?_, ?_, ?_⟩
  · intro route cities h2 hperm
    have hlen : route.length = cities.length := by
      simpa using hperm.length_eq
    refine calculate_cost_eq route cities ?_ ?_
    · intro hnil
      rw [hnil] at hlen
      simp at hlen
      omega
    · intro a ha
      have : a ∈ List.range cities.length := hperm.mem_iff.mp ha
      simpa using this
  · rw [calculate_cost_eq [0, 1] [⟨0, 0⟩, ⟨3, 4⟩] (by decide) (by decide)]
    rw [tourCostSpec]
    norm_num [cityD, dist_eval_25]
  · rw [calculate_cost_eq [0, 1, 2, 3] [⟨0, 0⟩, ⟨10, 0⟩, ⟨10, 10⟩, ⟨0, 10⟩]
      (by decide) (by decide)]
    rw [tourCostSpec]
    norm_num [cityD, dist, sqrt_100_eq]

/-- Claim C4, counterexample: on the singleton route `[0]` with one city —
`route.length < 2`, where the claim demands an `InvalidInput` error — the
evaluator simply succeeds, returning cost `0`. -/
theorem claim_C4_counterexample :
    ([0] : List Nat).length < 2 ∧
    calculate_cost [0] [⟨0, 0⟩] = some 0 := by
  refine ⟨by decide, ?_⟩
  rw [calculate_cost_eq [0] [⟨0, 0⟩] (by decide) (by decide)]
  rw [tourCostSpec]
  norm_num [cityD, dist_self_eq_zero]

/-- Claim C4, amended: `calculate_cost` performs no input validation and
has no error result at all; it succeeds on every nonempty route whose
entries index into the catalog (even a singleton route, and even when the
catalog is longer than the route), and panics (modelled `none`) exactly
when the route is empty or some route entry is out of bounds. -/
theorem claim_C4_amended (route : List Nat) (cities : List City) :
    calculate_cost route cities = none ↔
      route = [] ∨ ∃ a ∈ route, cities.length ≤ a :=
  calculate_cost_none_iff route cities

/-- Claim C5: every probability the program draws is strictly below `1`,
and with the configured cognitive/social components equal to `1.49445`
both conditional swaps of the cognitive/social pass execute
unconditionally, for every index, particle and draw. -/
theorem claim_C5_unconditional_swaps (cfg : Config)
    (h1 : cfg.cognitive_component = 1.49445)
    (h2 : cfg.social_component = 1.49445) :
    (∀ t : Nat, ((random_range 0 100 t : Int) : ℝ) / 100 < 1) ∧
    (1 : ℝ) < cfg.cognitive_component ∧ (1 : ℝ) < cfg.social_component ∧
    ∀ (bp gbp pos : List Nat) (i : Nat) (g : RNG),
      cog_soc_step cfg bp gbp pos i g =
        (listSwap (listSwap pos i (bp.getD i 0)) i (gbp.getD i 0),
          (rand1 (rand1 g).2).2) := by
  have hc1 : (1 : ℝ) < cfg.cognitive_component := by rw [h1]; norm_num
  have hc2 : (1 : ℝ) < cfg.social_component := by rw [h2]; norm_num
  refine ⟨prob_lt_one, hc1, hc2, ?_⟩
  intro bp gbp pos i g
  exact cog_soc_step_always cfg bp gbp pos i g hc1.le hc2.le

/-- Claim C5, witness: the reference configuration's components are
`1.49445`, and the swap pass at a concrete state is the unconditional
double swap. -/
theorem claim_C5_witness :
    cog_soc_step referenceConfig [0, 1] [1, 0] [0, 1] 0 (fun _ => 7) =
      (listSwap (listSwap [0, 1] 0 (List.getD [0, 1] 0 0)) 0
          (List.getD [1, 0] 0 0),
        (rand1 (rand1 (fun _ => 7)).2).2) :=
  (claim_C5_unconditional_swaps referenceConfig rfl rfl).2.2.2
    [0, 1] [1, 0] [0, 1] 0 (fun _ => 7)

/-- Claim C6: the prune step sorts the swarm by cost ascending (stably:
particles of equal cost keep their prior relative order), then replaces
exactly `floor(num_particles * prune_percentage / 100)` particles — the
ones at the highest-cost end of the sorted swarm — with fresh random
permutations whose cost is recomputed and whose personal best is reset;
the remaining particles are exactly the sorted originals, untouched. -/
theorem claim_C6_prune_exact (cfg : Config) (swarm : List Particle)
    (cities : List City) (g : RNG)
    (hlen : swarm.length = cfg.num_particles)
    (hpp : cfg.prune_percentage ≤ 100) :
    (prune_particles cfg swarm cities g).1 =
      (sortByCost swarm).take (cfg.num_particles - pruneCount cfg) ++
        ((freshList cfg cities g (pruneCount cfg)).1).reverse ∧
    pruneCount cfg = cfg.num_particles * cfg.prune_percentage / 100 ∧
    (sortByCost swarm).Pairwise (fun a b => a.cost ≤ b.cost) ∧
    (sortByCost swarm).Perm swarm ∧
    (∀ c : ℝ, (sortByCost swarm).filter (fun p => decide (p.cost = c)) =
      swarm.filter (fun p => decide (p.cost = c))) ∧
    ((freshList cfg cities g (pruneCount cfg)).1).length = pruneCount cfg ∧
    ∀ p ∈ (freshList cfg cities g (pruneCount cfg)).1,
      p.best_position = p.position ∧ p.best_cost = p.cost ∧
        p.cost = calcCost p.position cities := by
  have hpc : pruneCount cfg ≤ cfg.num_particles := by
    rw [pruneCount]
    calc cfg.num_particles * cfg.prune_percentage / 100
        ≤ cfg.num_particles * 100 / 100 :=
          Nat.div_le_div_right (Nat.mul_le_mul_left _ hpp)
      _ = cfg.num_particles := Nat.mul_div_cancel _ (by norm_num)
  refine ⟨?_, rfl, sortByCost_sorted swarm, sortByCost_perm swarm,
    sortByCost_stable swarm, freshList_length cfg cities _ g, ?_⟩
  · rw [prune_particles_eq cfg swarm cities g hlen hpc]
  · intro p hp
    obtain ⟨h1, h2, h3, -⟩ := freshList_reset cfg cities _ g p hp
    exact ⟨h1, h2, h3⟩

/-- Claim C6, witness: the characterisation instantiated at the reference
configuration on a swarm of 500 particles. -/
theorem claim_C6_witness :
    (prune_particles referenceConfig (List.replicate 500 default) []
        (fun _ => 0)).1 =
      (sortByCost (List.replicate 500 default)).take
          (referenceConfig.num_particles - pruneCount referenceConfig) ++
        ((freshList referenceConfig [] (fun _ => 0)
          (pruneCount referenceConfig)).1).reverse ∧
    pruneCount referenceConfig =
      referenceConfig.num_particles * referenceConfig.prune_percentage /
        100 ∧
    (sortByCost (List.replicate 500 default)).Pairwise
      (fun a b => a.cost ≤ b.cost) ∧
    (sortByCost (List.replicate 500 default)).Perm
      (List.replicate 500 default) ∧
    (∀ c : ℝ, (sortByCost (List.replicate 500 default)).filter
        (fun p => decide (p.cost = c)) =
      (List.replicate 500 default).filter (fun p => decide (p.cost = c))) ∧
    ((freshList referenceConfig [] (fun _ => 0)
        (pruneCount referenceConfig)).1).length =
      pruneCount referenceConfig ∧
    ∀ p ∈ (freshList referenceConfig [] (fun _ => 0)
        (pruneCount referenceConfig)).1,
      p.best_position = p.position ∧ p.best_cost = p.cost ∧
        p.cost = calcCost p.position [] :=
  claim_C6_prune_exact referenceConfig (List.replicate 500 default) []
    (fun _ => 0) (by rw [List.length_replicate]; rfl) (by decide)

/-- Claim C7: the program's randomness is not a seedable pseudo-random
generator — every draw is a pure function of the system-clock reading
consumed at that call (`min + clock mod (max - min)`), so executions at
different clock readings produce different draws and different shuffles;
there is no seed anywhere in the program. -/
theorem claim_C7_clock_randomness :
    (∀ (mn mx : Int) (t : Nat),
      random_range mn mx t = mn + (t : Int) % (mx - mn)) ∧
    random_range 0 100 5 ≠ random_range 0 100 6 ∧
    (shuffle_vec [0, 1, 2] (fun _ => 0)).1 ≠
      (shuffle_vec [0, 1, 2] (fun _ => 1)).1 :=
  ⟨fun _ _ _ => rfl, by decide, by decide⟩

/-- Claim C8: the two inertia-weight configuration values are dead: two
runs whose configurations differ only in `initial_inertia_weight` and
`final_inertia_weight` (all other fields equal, same clock stream) have
identical swarm states, global best and output at every iteration. -/
theorem claim_C8_inertia_weights_dead (cfg : Config) (w1 w2 : ℝ)
    (cities : List City) (g : RNG) (t : Nat) :
    runIters (setIW cfg w1 w2) cities
        (initState (setIW cfg w1 w2) cities g) t =
      runIters cfg cities (initState cfg cities g) t ∧
    (setIW cfg w1 w2).initial_inertia_weight = w1 ∧
    (setIW cfg w1 w2).final_inertia_weight = w2 ∧
    (setIW cfg w1 w2).num_cities = cfg.num_cities ∧
    (setIW cfg w1 w2).num_particles = cfg.num_particles ∧
    (setIW cfg w1 w2).max_iterations = cfg.max_iterations ∧
    (setIW cfg w1 w2).cognitive_component = cfg.cognitive_component ∧
    (setIW cfg w1 w2).social_component = cfg.social_component ∧
    (setIW cfg w1 w2).mutation_rate = cfg.mutation_rate ∧
    (setIW cfg w1 w2).prune_percentage = cfg.prune_percentage := by
  refine ⟨?_, rfl, rfl, rfl, rfl, rfl, rfl, rfl, rfl, rfl⟩
  rw [initState_setIW, runIters_setIW]

/-- Claim C9: the prune step neither reads nor writes the global best:
`prune_particles` receives neither component, and the global best returned
by `update_particles` is exactly the one produced by the per-particle
update loop, while the returned swarm is the prune of the loop's swarm. -/
theorem claim_C9_prune_preserves_global_best (cfg : Config)
    (swarm : List Particle) (gbp : List Nat) (gbc : ℝ)
    (cities : List City) (g : RNG) :
    (update_particles cfg swarm gbp gbc cities g).2.1 =
      (update_loop cfg cities swarm gbp gbc g).2.1 ∧
    (update_particles cfg swarm gbp gbc cities g).2.2.1 =
      (update_loop cfg cities swarm gbp gbc g).2.2.1 ∧
    (update_particles cfg swarm gbp gbc cities g).1 =
      (prune_particles cfg (update_loop cfg cities swarm gbp gbc g).1
        cities (update_loop cfg cities swarm gbp gbc g).2.2.2).1 :=
  ⟨rfl, rfl, rfl⟩

/-- Claim C10: at every iteration boundary the stored global best cost is
exactly the cost function evaluated at the stored global best position on
the city catalog. -/
theorem claim_C10_global_best_coherent (cfg : Config) (cities : List City)
    (g : RNG) (t : Nat) :
    (runIters cfg cities (initState cfg cities g) t).global_best_cost =
      calcCost
        (runIters cfg cities (initState cfg cities g) t).global_best_position
        cities :=
  runIters_coherent cfg cities g t

end TSP
